import Mathlib

/-
Verification of the vakt attribute-matching core: the Checker family
(`RegexChecker`, `StringChecker` with exact/fuzzy comparison), the
Condition family (`StringEqualCondition`, `StringPairsEqualCondition`)
and the `ObservableMutationStorage` decorator.

Python strings are modelled as `List Char`; Python values reaching the
conditions as the inductive `PyVal`; a computation that may raise a
Python exception is modelled with `Option` (`none` = exception).
-/

namespace Vakt

/-- Python string modelled as its list of characters. -/
abbrev PStr := List Char

/-- Build a modelled Python string from a Lean string literal. -/
def pstr (s : String) : PStr := s.data

/-! ## A small regular-expression semantics

Model of the fragment of Python `re` needed for the compiled patterns
appearing in the spec.  `eos` is the end-of-string anchor. -/

/-- Regular-expression abstract syntax: empty word, single character,
character class, concatenation, alternation, optional part, and the
end-of-string anchor. -/
inductive RE where
  | eps
  | chr (c : Char)
  | cls (cs : List Char)
  | seq (a b : RE)
  | alt (a b : RE)
  | opt (a : RE)
  | eos
deriving DecidableEq

/-- All suffixes remaining after the expression consumed a prefix of the
input.  The end-of-string anchor succeeds only when the whole input has
been consumed, exactly like `$` under Python `re.match`. -/
def runs : RE → List Char → List (List Char)
  | .eps, s => [s]
  | .chr _, [] => []
  | .chr c, x :: xs => if x = c then [xs] else []
  | .cls _, [] => []
  | .cls cs, x :: xs => if cs.contains x then [xs] else []
  | .seq a b, s => (runs a s).flatMap (runs b)
  | .alt a b, s => runs a s ++ runs b s
  | .opt a, s => s :: runs a s
  | .eos, s => if s.isEmpty then [s] else []

/-- Python `re.match(pattern, s)` is truthy iff some match of the pattern
starts at position 0 of `s` (a prefix match; `$` inside the pattern refers
to the end of the whole string). -/
def reMatch (r : RE) (s : PStr) : Bool := !(runs r s).isEmpty

/-! ## Policies and `RegexChecker.fits` (src/vakt/checker.py) -/

/-- Read-only view of a policy: the two single-character tags and the
named fields, each an ordered list of pattern strings.  A field the
policy does not expose is `none` (Python `getattr` default). -/
structure Policy where
  start_tag : Char
  end_tag : Char
  fields : String → Option (List PStr)

/-- Python `getattr(policy, field, [])`. -/
def getField (p : Policy) (f : String) : List PStr :=
  (p.fields f).getD []

/-- Test from `RegexChecker.fits`: an item is a plain literal when neither
tag occurs anywhere in it (`start_tag not in i and end_tag not in i`). -/
def regexLiteral (st en : Char) (i : PStr) : Bool :=
  !(i.contains st) && !(i.contains en)

/-- Outcome of one loop iteration of `RegexChecker.fits`: the item
matched, did not match, or its compilation raised `InvalidPatternError`. -/
inductive StepRes where
  | matched
  | nomatch
  | failedCompile
deriving DecidableEq

/-- One iteration of the `RegexChecker.fits` loop on item `i`, with the
pattern compiler abstracted as `compile` (`none` = the compiler raised
`InvalidPatternError`). -/
def regexStep (compile : PStr → Char → Char → Option RE)
    (st en : Char) (what i : PStr) : StepRes :=
  if regexLiteral st en i then
    if i == what then .matched else .nomatch
  else
    match compile i st en with
    | none => .failedCompile
    | some r => if reMatch r what then .matched else .nomatch

/-- Loop of `RegexChecker.fits` over the field's pattern list.  The second
component is the list of patterns whose compilation failure was logged
(`log.exception(...)`); a failure aborts the whole call with `False`. -/
def regexFitsList (compile : PStr → Char → Char → Option RE)
    (st en : Char) (what : PStr) : List PStr → Bool × List PStr
  | [] => (false, [])
  | i :: rest =>
    match regexStep compile st en what i with
    | .matched => (true, [])
    | .nomatch => regexFitsList compile st en what rest
    | .failedCompile => (false, [i])

/-- `RegexChecker.fits(policy, field, what)` with the compiler abstracted. -/
def regexFits (compile : PStr → Char → Char → Option RE)
    (p : Policy) (f : String) (what : PStr) : Bool × List PStr :=
  regexFitsList compile p.start_tag p.end_tag what (getField p f)

/-- Compiled form of the tagged pattern pstr of Dog[se] optional, with the
end anchor: it accepts exactly Dog, Doge and Dogs. -/
def dogRE : RE :=
  .seq (.chr 'D') (.seq (.chr 'o') (.seq (.chr 'g')
    (.seq (.opt (.cls ['s', 'e'])) .eos)))

/-- Modelled from the spec: the Pattern Compiler `compile_regex`
(vakt/parser.py, not part of the excerpt) turns a tagged pattern into an
executable matcher anchored on both sides, and fails on malformed input;
per the spec's example, with tags below it maps the Dog pattern to
`dogRE` and is taken to fail elsewhere. -/
def dogCompile (i : PStr) (st en : Char) : Option RE :=
  if i == pstr "<Dog[se]?>" && st == '<' && en == '>' then some dogRE else none

/-- A compiler that fails on every pattern (`InvalidPatternError` always). -/
def alwaysFailCompile : PStr → Char → Char → Option RE :=
  fun _ _ _ => none

/-- Policy of the spec's regex example: tags angle brackets, one field
holding only the tagged Dog pattern. -/
def dogPolicy : Policy :=
  ⟨'<', '>', fun _ => some [pstr "<Dog[se]?>"]⟩

/-- Policy whose field list is all-literal (no tag characters occur). -/
def litPolicy : Policy :=
  ⟨'<', '>', fun _ => some [pstr "books", pstr "movies"]⟩

/-! ## `StringChecker.fits` and its two comparisons (src/vakt/checker.py) -/

/-- Tag stripping of `StringChecker.fits`: when the first character equals
`start_tag` and the last equals `end_tag`, drop exactly those two
characters (Python `item[1:-1]`); otherwise keep the item unchanged. -/
def stripTags (st en : Char) (item : PStr) : PStr :=
  if item.head? == some st && item.getLast? == some en then
    (item.drop 1).dropLast
  else item

/-- Loop of `StringChecker.fits` over the field's pattern list.  Indexing
`item[0]` on an empty item raises `IndexError`, modelled as `none`. -/
def stringFitsList (cmp : PStr → PStr → Bool) (st en : Char)
    (what : PStr) : List PStr → Option Bool
  | [] => some false
  | item :: rest =>
    match item with
    | [] => none
    | _ :: _ =>
      if cmp what (stripTags st en item) then some true
      else stringFitsList cmp st en what rest

/-- `StringChecker.fits(policy, field, what)` for a given `compare`. -/
def stringFits (cmp : PStr → PStr → Bool) (p : Policy) (f : String)
    (what : PStr) : Option Bool :=
  stringFitsList cmp p.start_tag p.end_tag what (getField p f)

/-- Python substring test `n in h` on strings. -/
def inStr (n : PStr) : PStr → Bool
  | [] => n.isEmpty
  | l@(_ :: t) => n.isPrefixOf l || inStr n t

/-- `StringExactChecker.compare`: exact, case-sensitive equality. -/
def exactCompare (needle haystack : PStr) : Bool := needle == haystack

/-- `StringFuzzyChecker.compare`: case-sensitive substring containment of
the needle in the haystack. -/
def fuzzyCompare (needle haystack : PStr) : Bool := inStr needle haystack

/-! ## Python values and the Condition family (src/vakt/conditions/string.py) -/

/-- Python values reaching `satisfied`: strings, integers, lists and
tuples. -/
inductive PyVal where
  | str (s : PStr)
  | int (n : Int)
  | list (l : List PyVal)
  | tuple (l : List PyVal)

mutual

/-- Python `==` on the modelled values: same-type structural comparison,
`False` across types. -/
def pyEq : PyVal → PyVal → Bool
  | .str a, .str b => a == b
  | .int a, .int b => a == b
  | .list a, .list b => pyEqL a b
  | .tuple a, .tuple b => pyEqL a b
  | _, _ => false

/-- Elementwise Python `==` on value lists. -/
def pyEqL : List PyVal → List PyVal → Bool
  | [], [] => true
  | x :: xs, y :: ys => pyEq x y && pyEqL xs ys
  | _, _ => false

end

/-- Python `isinstance(v, str)`. -/
def isStr : PyVal → Bool
  | .str _ => true
  | _ => false

/-- Python `len(v)`: strings, lists and tuples are sized; `len` of an
integer raises `TypeError` (`none`). -/
def pyLen : PyVal → Option Nat
  | .str s => some s.length
  | .list l => some l.length
  | .tuple l => some l.length
  | .int _ => none

/-- Python subscript `v[i]` for a non-negative index; indexing a string
yields a one-character string. -/
def pyIndex : PyVal → Nat → Option PyVal
  | .str s, i => (s[i]?).map (fun c => PyVal.str [c])
  | .list l, i => l[i]?
  | .tuple l, i => l[i]?
  | .int _, _ => none

/-- Loop body of `StringPairsEqualCondition.satisfied` over the elements
of the list: `len(pair)` may raise (`none`); a wrong length, a pair whose
elements are both non-strings, or unequal elements return `False`. -/
def pairsGo : List PyVal → Option Bool
  | [] => some true
  | pair :: rest =>
    match pyLen pair with
    | none => none
    | some n =>
      if n ≠ 2 then some false
      else
        match pyIndex pair 0, pyIndex pair 1 with
        | some a, some b =>
          if !(isStr a) && !(isStr b) then some false
          else if !(pyEq a b) then some false
          else pairsGo rest
        | _, _ => none

/-- `StringPairsEqualCondition.satisfied(what, request)`: anything that is
not a Python list is rejected at once; otherwise scan the pairs. -/
def pairsSatisfied (what _request : PyVal) : Option Bool :=
  match what with
  | .list l => pairsGo l
  | _ => some false

/-- `StringEqualCondition.satisfied(what, request)`: true iff `what` is a
string equal to the configured `equals`. -/
def strEqSatisfied (equals : PStr) (what _request : PyVal) : Bool :=
  match what with
  | .str s => s == equals
  | _ => false

/-- A pair in the sense of the spec: a 2-element sequence whose two
elements are strings equal to each other. -/
def specGoodPair (p : PyVal) : Bool :=
  if pyLen p = some 2 then
    match pyIndex p 0, pyIndex p 1 with
    | some (.str a), some (.str b) => a == b
    | _, _ => false
  else false

/-- Elements of a Python sequence (string, list or tuple); an integer is
not a sequence. -/
def pyElems : PyVal → Option (List PyVal)
  | .str s => some (s.map (fun c => PyVal.str [c]))
  | .list l => some l
  | .tuple l => some l
  | .int _ => none

/-- Predicate following the claim's words for `StringPairsEqualCondition`:
`what` is a sequence of 2-element sequences of pairwise equal strings. -/
def claimPred (what : PyVal) : Bool :=
  match pyElems what with
  | some l => l.all specGoodPair
  | none => false

/-- Predicate of the amended claim: `what` is specifically a Python list
of good pairs. -/
def amendedPred (what : PyVal) : Bool :=
  match what with
  | .list l => l.all specGoodPair
  | _ => false

/-- Every element of a candidate list supports `len` (so the scan cannot
raise `TypeError`). -/
def allSized : PyVal → Bool
  | .list l => l.all (fun p => (pyLen p).isSome)
  | _ => true

/-! ## The LRU pattern cache (`functools.lru_cache` around `compile_regex`)

`RegexChecker.__init__` wraps the compiler in `lru_cache(maxsize=cache_size)`.
The cache is modelled as an association list in most-recently-used-first
order.  CPython's `lru_cache` stores only calls that return normally: a
call that raises propagates the exception before any cache insertion, so
failures are never memoized. -/

/-- Cache key: the (pattern, start_tag, end_tag) triple. -/
abbrev CKey := PStr × Char × Char

/-- The pattern cache: entries in most-recently-used-first order. -/
abbrev Cache := List (CKey × RE)

/-- Look up a key in the cache. -/
def cacheLookup (k : CKey) : Cache → Option RE
  | [] => none
  | (k2, v) :: rest => if k2 = k then some v else cacheLookup k rest

/-- Remove the entry of a key (first occurrence). -/
def eraseKey (k : CKey) : Cache → Cache
  | [] => []
  | (k2, v) :: rest => if k2 = k then rest else (k2, v) :: eraseKey k rest

/-- One access through the `lru_cache` wrapper: on a hit, move the entry
to the front and do not invoke the compiler; on a miss, invoke it and, if
it returns normally, insert the entry in front and truncate to capacity
(evicting the least recently used); a raising call caches nothing.  The
boolean reports whether the compiler was invoked. -/
def lruGet (compile : PStr → Char → Char → Option RE) (cap : Nat)
    (c : Cache) (k : CKey) : Option RE × Cache × Bool :=
  match cacheLookup k c with
  | some v => (some v, (k, v) :: eraseKey k c, false)
  | none =>
    match compile k.1 k.2.1 k.2.2 with
    | some v => (some v, ((k, v) :: c).take cap, true)
    | none => (none, c, true)

/-- `RegexChecker.fits` threading the pattern cache through the loop; the
third component counts the compiler invocations made by the call. -/
def fitsCachedList (compile : PStr → Char → Char → Option RE) (cap : Nat)
    (st en : Char) (what : PStr) : Cache → List PStr → Bool × Cache × Nat
  | c, [] => (false, c, 0)
  | c, i :: rest =>
    if regexLiteral st en i then
      if i == what then (true, c, 0)
      else fitsCachedList compile cap st en what c rest
    else
      match lruGet compile cap c (i, st, en) with
      | (none, c2, _) => (false, c2, 1)
      | (some r, c2, inv) =>
        if reMatch r what then (true, c2, if inv then 1 else 0)
        else
          let res := fitsCachedList compile cap st en what c2 rest
          (res.1, res.2.1, (if inv then 1 else 0) + res.2.2)

/-- A tagged pattern whose compilation always fails. -/
def badPattern : PStr := pstr "<("

/-- Cache key of the Dog pattern under angle-bracket tags. -/
def k0 : CKey := (pstr "<Dog[se]?>", '<', '>')

/-! ## ObservableMutationStorage (src/vakt/storage/observable.py)

The wrapped store is external: each delegated call is represented by its
result, an `Except` value (`error` = the backend raised).  A method run
is described by its result together with the trace of events on the
caller's path. -/

/-- Events on the call path of a wrapper method: the delegated store call,
the `notify()` call, and the invocation of one subscriber. -/
inductive StoreEv where
  | delegated
  | notifyCalled
  | observed (i : Nat)
deriving DecidableEq

/-- Test for a subscriber-invocation event. -/
def isObservedEv : StoreEv → Bool
  | .observed _ => true
  | _ => false

/-- Modelled from the spec: `Subject` (vakt/util.py, not part of the
excerpt) keeps the ordered subscriber list, and `notify()` invokes all
current subscribers, in subscription order, with no arguments. -/
def notifyEvents (subs : List Nat) : List StoreEv :=
  StoreEv.notifyCalled :: subs.map StoreEv.observed

/-- Whether a delegated call returned normally. -/
def exOk {E R : Type} : Except E R → Bool
  | .ok _ => true
  | .error _ => false

/-- `ObservableMutationStorage.add`: delegate, then `notify()`, then
return the delegate's result; an error propagates before `notify()`. -/
def obsAdd {E R : Type} (subs : List Nat) (res : Except E R) :
    Except E R × List StoreEv :=
  match res with
  | .ok r => (.ok r, .delegated :: notifyEvents subs)
  | .error e => (.error e, [.delegated])

/-- `ObservableMutationStorage.update`: same shape as `add`. -/
def obsUpdate {E R : Type} (subs : List Nat) (res : Except E R) :
    Except E R × List StoreEv :=
  match res with
  | .ok r => (.ok r, .delegated :: notifyEvents subs)
  | .error e => (.error e, [.delegated])

/-- `ObservableMutationStorage.delete`: same shape as `add`. -/
def obsDelete {E R : Type} (subs : List Nat) (res : Except E R) :
    Except E R × List StoreEv :=
  match res with
  | .ok r => (.ok r, .delegated :: notifyEvents subs)
  | .error e => (.error e, [.delegated])

/-- `ObservableMutationStorage.get`: pure delegation; the subscriber list
is returned unchanged. -/
def obsGet {E R : Type} (subs : List Nat) (res : Except E R) :
    Except E R × List StoreEv × List Nat :=
  (res, [.delegated], subs)

/-- `ObservableMutationStorage.get_all`: pure delegation. -/
def obsGetAll {E R : Type} (subs : List Nat) (res : Except E R) :
    Except E R × List StoreEv × List Nat :=
  (res, [.delegated], subs)

/-- `ObservableMutationStorage.find_for_inquiry`: pure delegation. -/
def obsFindForInquiry {E R : Type} (subs : List Nat) (res : Except E R) :
    Except E R × List StoreEv × List Nat :=
  (res, [.delegated], subs)

/-- Field list used by the witness of the string-checker claim. -/
def l7 : List PStr := [pstr "<ab>", pstr "cd"]

/-- Tuple-of-pairs input used by the pairs-condition counterexample. -/
def c2what : PyVal := .tuple [.tuple [.str (pstr "a"), .str (pstr "a")]]

/-! ## Helper lemmas -/

/-- A step whose item does not match lets the scan continue on the rest. -/
theorem regexFitsList_cons_nomatch (compile : PStr → Char → Char → Option RE)
    (st en : Char) (w i : PStr) (l : List PStr)
    (h : regexStep compile st en w i = .nomatch) :
    regexFitsList compile st en w (i :: l) = regexFitsList compile st en w l := by
  simp [regexFitsList, h]

/-- A failing item makes the scan stop with a logged failure. -/
theorem regexFitsList_cons_failed (compile : PStr → Char → Char → Option RE)
    (st en : Char) (w i : PStr) (l : List PStr)
    (h : regexStep compile st en w i = .failedCompile) :
    regexFitsList compile st en w (i :: l) = (false, [i]) := by
  simp [regexFitsList, h]

/-- On an all-literal list the scan is exact membership of `w`. -/
theorem regexFitsList_literal (compile : PStr → Char → Char → Option RE)
    (st en : Char) (w : PStr) (l : List PStr)
    (h : ∀ i ∈ l, regexLiteral st en i = true) :
    ((regexFitsList compile st en w l).1 = true ↔ w ∈ l) := by
  induction l with
  | nil => simp [regexFitsList]
  | cons i rest ih =>
    have hi : regexLiteral st en i = true := h i (List.mem_cons_self i rest)
    have hrest : ∀ j ∈ rest, regexLiteral st en j = true :=
      fun j hj => h j (List.mem_cons_of_mem i hj)
    by_cases hw : i == w
    · have : regexStep compile st en w i = .matched := by
        simp [regexStep, hi, hw]
      simp [regexFitsList, this, List.mem_cons]
      exact Or.inl (LawfulBEq.eq_of_beq hw).symm
    · have : regexStep compile st en w i = .nomatch := by
        simp [regexStep, hi, hw]
      rw [regexFitsList_cons_nomatch compile st en w i rest this]
      rw [ih hrest]
      simp [List.mem_cons]
      intro he
      exact absurd (by simp [he] : (i == w) = true) hw

/-- Generic characterization of the `StringChecker.fits` scan when no
item is empty. -/
theorem stringFitsList_iff (cmp : PStr → PStr → Bool) (st en : Char)
    (w : PStr) (l : List PStr) (h : ∀ i ∈ l, i ≠ ([] : PStr)) :
    (stringFitsList cmp st en w l = some true ↔
      ∃ i ∈ l, cmp w (stripTags st en i) = true) := by
  induction l with
  | nil => simp [stringFitsList]
  | cons item rest ih =>
    have hitem : item ≠ ([] : PStr) := h item (List.mem_cons_self item rest)
    have hrest : ∀ j ∈ rest, j ≠ ([] : PStr) :=
      fun j hj => h j (List.mem_cons_of_mem item hj)
    match item, hitem with
    | c :: cs, _ =>
      by_cases hc : cmp w (stripTags st en (c :: cs)) = true
      · simp [stringFitsList, hc]
      · simp [stringFitsList, hc, ih hrest]

/-- The scan of `StringChecker.fits` cannot raise when no item is empty. -/
theorem stringFitsList_isSome (cmp : PStr → PStr → Bool) (st en : Char)
    (w : PStr) (l : List PStr) (h : ∀ i ∈ l, i ≠ ([] : PStr)) :
    ∃ b, stringFitsList cmp st en w l = some b := by
  induction l with
  | nil => exact ⟨false, rfl⟩
  | cons item rest ih =>
    have hitem : item ≠ ([] : PStr) := h item (List.mem_cons_self item rest)
    have hrest : ∀ j ∈ rest, j ≠ ([] : PStr) :=
      fun j hj => h j (List.mem_cons_of_mem item hj)
    match item, hitem with
    | c :: cs, _ =>
      by_cases hc : cmp w (stripTags st en (c :: cs)) = true
      · exact ⟨true, by simp [stringFitsList, hc]⟩
      · obtain ⟨b, hb⟩ := ih hrest
        exact ⟨b, by simp [stringFitsList, hc, hb]⟩

/-- A sized value of length 2 has elements at indices 0 and 1. -/
theorem pyLen_two_index (p : PyVal) (h : pyLen p = some 2) :
    ∃ a b, pyIndex p 0 = some a ∧ pyIndex p 1 = some b := by
  cases p with
  | str s =>
    have hs : s.length = 2 := by simpa [pyLen] using h
    obtain ⟨c1, c2, rfl⟩ := List.length_eq_two.mp hs
    exact ⟨.str [c1], .str [c2], rfl, rfl⟩
  | int n => simp [pyLen] at h
  | list l =>
    have hs : l.length = 2 := by simpa [pyLen] using h
    obtain ⟨a, b, rfl⟩ := List.length_eq_two.mp hs
    exact ⟨a, b, rfl, rfl⟩
  | tuple l =>
    have hs : l.length = 2 := by simpa [pyLen] using h
    obtain ⟨a, b, rfl⟩ := List.length_eq_two.mp hs
    exact ⟨a, b, rfl, rfl⟩

/-- The pair scan succeeds exactly on lists of good pairs. -/
theorem pairsGo_iff (l : List PyVal) :
    (pairsGo l = some true ↔ l.all specGoodPair = true) := by
  induction l with
  | nil => simp [pairsGo]
  | cons pair rest ih =>
    cases hLen : pyLen pair with
    | none => simp [pairsGo, hLen, specGoodPair]
    | some n =>
      by_cases hn : n = 2
      · subst hn
        obtain ⟨a, b, ha, hb⟩ := pyLen_two_index pair hLen
        cases a with
        | str x =>
          cases b with
          | str y =>
            by_cases hxy : (x == y) = true
            · simp [pairsGo, hLen, ha, hb, specGoodPair, isStr, pyEq, hxy, ih]
            · simp [pairsGo, hLen, ha, hb, specGoodPair, isStr, pyEq, hxy]
          | int m => simp [pairsGo, hLen, ha, hb, specGoodPair, isStr, pyEq]
          | list lb => simp [pairsGo, hLen, ha, hb, specGoodPair, isStr, pyEq]
          | tuple tb => simp [pairsGo, hLen, ha, hb, specGoodPair, isStr, pyEq]
        | int m =>
          cases b <;> simp [pairsGo, hLen, ha, hb, specGoodPair, isStr, pyEq]
        | list la =>
          cases b <;> simp [pairsGo, hLen, ha, hb, specGoodPair, isStr, pyEq]
        | tuple ta =>
          cases b <;> simp [pairsGo, hLen, ha, hb, specGoodPair, isStr, pyEq]
      · simp [pairsGo, hLen, hn, specGoodPair]

/-- The pair scan cannot raise when every element is sized. -/
theorem pairsGo_isSome (l : List PyVal) (h : ∀ p ∈ l, (pyLen p).isSome = true) :
    ∃ b, pairsGo l = some b := by
  induction l with
  | nil => exact ⟨true, rfl⟩
  | cons pair rest ih =>
    have hp : (pyLen pair).isSome = true := h pair (List.mem_cons_self pair rest)
    cases hLen : pyLen pair with
    | none => rw [hLen] at hp; simp at hp
    | some n =>
      by_cases hn : n = 2
      · subst hn
        obtain ⟨a, b, ha, hb⟩ := pyLen_two_index pair hLen
        by_cases h1 : (!(isStr a) && !(isStr b)) = true
        · exact ⟨false, by simp [pairsGo, hLen, ha, hb, h1]⟩
        · by_cases h2 : pyEq a b = true
          · obtain ⟨c, hc⟩ := ih (fun p hp2 => h p (List.mem_cons_of_mem _ hp2))
            exact ⟨c, by simp [pairsGo, hLen, ha, hb, h1, h2, hc]⟩
          · exact ⟨false, by simp [pairsGo, hLen, ha, hb, h1, h2]⟩
      · exact ⟨false, by simp [pairsGo, hLen, hn]⟩

/-- Erasing a key that is present shrinks the cache by exactly one. -/
theorem eraseKey_length (k : CKey) (c : Cache) (v : RE)
    (h : cacheLookup k c = some v) : (eraseKey k c).length + 1 = c.length := by
  induction c with
  | nil => simp [cacheLookup] at h
  | cons e rest ih =>
    obtain ⟨k2, v2⟩ := e
    by_cases hk : k2 = k
    · simp [eraseKey, hk]
    · rw [cacheLookup, if_neg hk] at h
      simp [eraseKey, hk, ih h]

/-- Unfolding of an access that hits the cache. -/
theorem lruGet_hit (compile : PStr → Char → Char → Option RE) (cap : Nat)
    (c : Cache) (k : CKey) (v : RE) (h : cacheLookup k c = some v) :
    lruGet compile cap c k = (some v, (k, v) :: eraseKey k c, false) := by
  simp [lruGet, h]

/-- Unfolding of an access that misses and compiles successfully. -/
theorem lruGet_miss (compile : PStr → Char → Char → Option RE) (cap : Nat)
    (c : Cache) (k : CKey) (v : RE) (h : cacheLookup k c = none)
    (hcompile : compile k.1 k.2.1 k.2.2 = some v) :
    lruGet compile cap c k = (some v, ((k, v) :: c).take cap, true) := by
  simp [lruGet, h, hcompile]

/-- After an access whose compilation succeeds, the key is the cache's
most recent entry whenever the capacity is positive. -/
theorem lruGet_mem (compile : PStr → Char → Char → Option RE) (cap : Nat)
    (c : Cache) (k : CKey) (v : RE) (hcap : 0 < cap)
    (hcompile : compile k.1 k.2.1 k.2.2 = some v) :
    ∃ v2, (lruGet compile cap c k).2.1 = (k, v2) :: ((lruGet compile cap c k).2.1).tail := by
  obtain ⟨m, rfl⟩ : ∃ m, cap = m + 1 := ⟨cap - 1, by omega⟩
  cases h : cacheLookup k c with
  | some v2 => exact ⟨v2, by simp [lruGet_hit compile (m + 1) c k v2 h]⟩
  | none => exact ⟨v, by simp [lruGet_miss compile (m + 1) c k v h hcompile, List.take_succ_cons]⟩

/-- A second access of the same key right after a successful one is a hit
and does not invoke the compiler. -/
theorem lruGet_twice (compile : PStr → Char → Char → Option RE) (cap : Nat)
    (c : Cache) (k : CKey) (v : RE) (hcap : 0 < cap)
    (hcompile : compile k.1 k.2.1 k.2.2 = some v) :
    (lruGet compile cap ((lruGet compile cap c k).2.1) k).2.2 = false := by
  obtain ⟨v2, hv2⟩ := lruGet_mem compile cap c k v hcap hcompile
  rw [hv2]
  simp [lruGet, cacheLookup]

/-- Cache and invocation count of a single-tagged-item `fits` call, given
the wrapped compiler access it performs. -/
theorem fitsCachedList_single (compile : PStr → Char → Char → Option RE)
    (cap : Nat) (st en : Char) (w i : PStr) (c : Cache) (r : RE) (c2 : Cache)
    (inv : Bool) (htag : regexLiteral st en i = false)
    (h : lruGet compile cap c (i, st, en) = (some r, c2, inv)) :
    (fitsCachedList compile cap st en w c [i]).2.1 = c2
    ∧ (fitsCachedList compile cap st en w c [i]).2.2 = (if inv then 1 else 0) := by
  by_cases hm : reMatch r w = true
  · simp [fitsCachedList, htag, h, hm]
  · simp [fitsCachedList, htag, h, hm]

/-- A second identical single-item `fits` call right after a first one
finds the compiled pattern in the cache and does not compile. -/
theorem fitsCached_second (compile : PStr → Char → Char → Option RE)
    (cap : Nat) (st en : Char) (w i : PStr) (c : Cache) (v : RE)
    (hcap : 0 < cap) (htag : regexLiteral st en i = false)
    (hcompile : compile i st en = some v) :
    (fitsCachedList compile cap st en w
      (fitsCachedList compile cap st en w c [i]).2.1 [i]).2.2 = 0 := by
  have hk1 : ∃ r c2 inv, lruGet compile cap c (i, st, en) = (some r, c2, inv) := by
    cases h : cacheLookup (i, st, en) c with
    | some v2 => exact ⟨v2, _, _, lruGet_hit compile cap c _ v2 h⟩
    | none => exact ⟨v, _, _, lruGet_miss compile cap c _ v h hcompile⟩
  obtain ⟨r, c2, inv, h1⟩ := hk1
  obtain ⟨hc2, _⟩ :=
    fitsCachedList_single compile cap st en w i c r c2 inv htag h1
  rw [hc2]
  have hc2eq : (lruGet compile cap c (i, st, en)).2.1 = c2 := by rw [h1]
  obtain ⟨v2, hv2⟩ := lruGet_mem compile cap c (i, st, en) v hcap hcompile
  have hhit : cacheLookup (i, st, en) c2 = some v2 := by
    rw [← hc2eq, hv2]
    simp [cacheLookup]
  have h2 := lruGet_hit compile cap c2 (i, st, en) v2 hhit
  obtain ⟨_, hcount⟩ :=
    fitsCachedList_single compile cap st en w i c2 v2 _ false htag h2
  rw [hcount]
  simp

/-- Subscriber-invocation events never count as a `notify()` call. -/
theorem count_observed (subs : List Nat) :
    (subs.map StoreEv.observed).count StoreEv.notifyCalled = 0 := by
  rw [List.count_eq_zero]
  simp

/-! ## Claim theorems -/

/-- C1: when the `RegexChecker.fits` scan reaches a tagged pattern item
whose compilation fails, the call logs that one failure and returns false
at once: the result is `(false, [i])` for every tail `rest`, so no later
item is attempted, and the call returns a boolean instead of raising. -/
theorem regex_compile_error_aborts (compile : PStr → Char → Char → Option RE)
    (st en : Char) (w : PStr) (pre rest : List PStr) (i : PStr)
    (hpre : ∀ j ∈ pre, regexStep compile st en w j = .nomatch)
    (htag : regexLiteral st en i = false)
    (hc : compile i st en = none) :
    regexFitsList compile st en w (pre ++ i :: rest) = (false, [i]) := by
  induction pre with
  | nil =>
    have hstep : regexStep compile st en w i = .failedCompile := by
      simp [regexStep, htag, hc]
    simpa using regexFitsList_cons_failed compile st en w i rest hstep
  | cons j js ih =>
    have hj : regexStep compile st en w j = .nomatch :=
      hpre j (List.mem_cons_self j js)
    have hjs : ∀ x ∈ js, regexStep compile st en w x = .nomatch :=
      fun x hx => hpre x (List.mem_cons_of_mem j hx)
    rw [List.cons_append,
      regexFitsList_cons_nomatch compile st en w j (js ++ i :: rest) hj]
    exact ih hjs

/-- Witness for C1 at a concrete scan: a literal non-matching item, then a
tagged failing item, then a further item that is never reached. -/
theorem regex_compile_error_aborts_witness :
    regexFitsList alwaysFailCompile '<' '>' (pstr "z")
      [pstr "a", pstr "<b", pstr "c"] = (false, [pstr "<b"]) :=
  regex_compile_error_aborts alwaysFailCompile '<' '>' (pstr "z")
    [pstr "a"] [pstr "c"] (pstr "<b") (by decide) (by decide) (by decide)

/-- C2 counterexample: a tuple of equal-string pairs is a sequence of
2-element sequences of equal strings, yet `satisfied` rejects it because
the code accepts only Python lists; the claimed equivalence fails there. -/
theorem pairs_sequence_counterexample :
    pairsSatisfied c2what (.int 0) = some false
    ∧ claimPred c2what = true
    ∧ ¬((pairsSatisfied c2what (.int 0) = some true) ↔ claimPred c2what = true) := by
  decide

/-- C2 amended: `satisfied(what, request)` returns true iff `what` is a
Python list each of whose elements is a 2-element sequence whose two
elements are equal strings. -/
theorem pairs_satisfied_characterization (what request : PyVal) :
    pairsSatisfied what request = some true ↔ amendedPred what = true := by
  cases what with
  | str s => simp [pairsSatisfied, amendedPred]
  | int n => simp [pairsSatisfied, amendedPred]
  | list l => simpa [pairsSatisfied, amendedPred] using pairsGo_iff l
  | tuple l => simp [pairsSatisfied, amendedPred]

/-- Witness for C2 at a concrete list of one good pair. -/
theorem pairs_satisfied_characterization_witness :
    pairsSatisfied (.list [.list [.str (pstr "b"), .str (pstr "b")]]) (.int 0) = some true
      ↔ amendedPred (.list [.list [.str (pstr "b"), .str (pstr "b")]]) = true :=
  pairs_satisfied_characterization (.list [.list [.str (pstr "b"), .str (pstr "b")]]) (.int 0)

/-- C3 counterexample: matching can raise.  `satisfied([5], request)`
raises `TypeError` on `len(5)`, and `StringChecker.fits` raises
`IndexError` on an empty pattern item, both modelled as `none`. -/
theorem matching_raises_counterexample :
    pairsSatisfied (.list [.int 5]) (.int 0) = none
    ∧ stringFitsList exactCompare '<' '>' (pstr "a") [([] : PStr), pstr "a"] = none :=
  ⟨rfl, rfl⟩

/-- C3 amended: the string-checker scan returns a boolean whenever no
item is empty; the pairs condition returns a boolean whenever every list
element is sized; and a compilation failure inside `RegexChecker.fits` is
converted to a `(false, logged)` result instead of being raised. -/
theorem matching_total_amended :
    (∀ (cmp : PStr → PStr → Bool) (st en : Char) (w : PStr) (l : List PStr),
        (∀ i ∈ l, i ≠ ([] : PStr)) → ∃ b, stringFitsList cmp st en w l = some b)
    ∧ (∀ (what request : PyVal), allSized what = true →
        ∃ b, pairsSatisfied what request = some b)
    ∧ (∀ (compile : PStr → Char → Char → Option RE) (st en : Char) (w i : PStr)
        (rest : List PStr), regexLiteral st en i = false → compile i st en = none →
        regexFitsList compile st en w (i :: rest) = (false, [i])) := by
  refine ⟨stringFitsList_isSome, ?_, ?_⟩
  · intro what request hsized
    cases what with
    | str s => exact ⟨false, rfl⟩
    | int n => exact ⟨false, rfl⟩
    | tuple l => exact ⟨false, rfl⟩
    | list l =>
      have hall : ∀ p ∈ l, (pyLen p).isSome = true := by
        simpa [allSized, List.all_eq_true] using hsized
      exact pairsGo_isSome l hall
  · intro compile st en w i rest htag hcomp
    have hstep : regexStep compile st en w i = .failedCompile := by
      simp [regexStep, htag, hcomp]
    exact regexFitsList_cons_failed compile st en w i rest hstep

/-- Witness for C3 at concrete inputs of each kind. -/
theorem matching_total_amended_witness :
    (stringFitsList exactCompare '<' '>' (pstr "a") [pstr "b"]).isSome = true
    ∧ (pairsSatisfied (.list [.list [.str (pstr "a"), .str (pstr "a")]]) (.int 0)).isSome = true
    ∧ regexFitsList alwaysFailCompile '<' '>' (pstr "a") [pstr "<x"] = (false, [pstr "<x"]) :=
  ⟨Option.isSome_iff_exists.mpr
      (matching_total_amended.1 exactCompare '<' '>' (pstr "a") [pstr "b"] (by decide)),
   Option.isSome_iff_exists.mpr
      (matching_total_amended.2.1
        (.list [.list [.str (pstr "a"), .str (pstr "a")]]) (.int 0) (by decide)),
   matching_total_amended.2.2 alwaysFailCompile '<' '>' (pstr "a") (pstr "<x") []
     (by decide) (by decide)⟩

/-- C4: `add`, `update` and `delete` return the delegate's result
unchanged; on success the trace shows the delegated call first and then
exactly one `notify()` before returning; on failure the trace is the
delegated call alone, so `notify()` is never invoked and the error
propagates unchanged. -/
theorem obs_mutation_spec {E R : Type} (subs : List Nat) (res : Except E R) :
    ((obsAdd subs res).1 = res
      ∧ (obsAdd subs res).2.count .notifyCalled = (if exOk res then 1 else 0)
      ∧ ((obsAdd subs res).2)[0]? = some .delegated
      ∧ (exOk res = true → ((obsAdd subs res).2)[1]? = some .notifyCalled)
      ∧ (exOk res = false → (obsAdd subs res).2 = [.delegated]))
    ∧ ((obsUpdate subs res).1 = res
      ∧ (obsUpdate subs res).2.count .notifyCalled = (if exOk res then 1 else 0)
      ∧ ((obsUpdate subs res).2)[0]? = some .delegated
      ∧ (exOk res = true → ((obsUpdate subs res).2)[1]? = some .notifyCalled)
      ∧ (exOk res = false → (obsUpdate subs res).2 = [.delegated]))
    ∧ ((obsDelete subs res).1 = res
      ∧ (obsDelete subs res).2.count .notifyCalled = (if exOk res then 1 else 0)
      ∧ ((obsDelete subs res).2)[0]? = some .delegated
      ∧ (exOk res = true → ((obsDelete subs res).2)[1]? = some .notifyCalled)
      ∧ (exOk res = false → (obsDelete subs res).2 = [.delegated])) := by
  cases res <;>
    simp [obsAdd, obsUpdate, obsDelete, exOk, notifyEvents,
      List.count_cons, count_observed]

/-- Witness for C4: a successful `add` notifies right after delegating,
and a failing `delete` produces the bare delegated trace. -/
theorem obs_mutation_spec_witness :
    (obsAdd [0] (Except.ok 1 : Except Nat Nat)).1 = Except.ok 1
    ∧ ((obsAdd [0] (Except.ok 1 : Except Nat Nat)).2)[1]? = some StoreEv.notifyCalled
    ∧ (obsDelete [0] (Except.error 2 : Except Nat Nat)).2 = [StoreEv.delegated] :=
  ⟨(obs_mutation_spec [0] (Except.ok 1 : Except Nat Nat)).1.1,
   (obs_mutation_spec [0] (Except.ok 1 : Except Nat Nat)).1.2.2.2.1 rfl,
   ((obs_mutation_spec [0] (Except.error 2 : Except Nat Nat)).2.2).2.2.2.2 rfl⟩

/-- C5: on a field whose items are all literal, `RegexChecker.fits` is
exact membership of `what` in the field's list, and a missing field (and
hence an empty list) yields false. -/
theorem regex_literal_fields (compile : PStr → Char → Char → Option RE)
    (p : Policy) (f : String) (w : PStr)
    (h : ∀ i ∈ getField p f, regexLiteral p.start_tag p.end_tag i = true) :
    ((regexFits compile p f w).1 = true ↔ w ∈ getField p f)
    ∧ (p.fields f = none → (regexFits compile p f w).1 = false) := by
  constructor
  · exact regexFitsList_literal compile p.start_tag p.end_tag w (getField p f) h
  · intro hnone
    have hempty : getField p f = [] := by simp [getField, hnone]
    simp [regexFits, hempty, regexFitsList]

/-- Witness for C5 on a two-literal field. -/
theorem regex_literal_fields_witness :
    (regexFits alwaysFailCompile litPolicy "actions" (pstr "books")).1 = true :=
  (regex_literal_fields alwaysFailCompile litPolicy "actions" (pstr "books")
    (by decide)).1.mpr (by decide)

/-- C6: a tagged item that compiles successfully accepts the value
exactly when the compiled pattern matches starting at position 0 of the
value (`re.match`); and on the spec's Dog example the checker accepts
Dog, Doge and Dogs and rejects Dogger. -/
theorem regex_tagged_prefix_match :
    (∀ (compile : PStr → Char → Char → Option RE) (st en : Char) (w i : PStr)
        (r : RE), regexLiteral st en i = false → compile i st en = some r →
        (regexStep compile st en w i = .matched ↔ reMatch r w = true))
    ∧ (regexFits dogCompile dogPolicy "actions" (pstr "Dog")).1 = true
    ∧ (regexFits dogCompile dogPolicy "actions" (pstr "Doge")).1 = true
    ∧ (regexFits dogCompile dogPolicy "actions" (pstr "Dogs")).1 = true
    ∧ (regexFits dogCompile dogPolicy "actions" (pstr "Dogger")).1 = false := by
  refine ⟨?_, by decide, by decide, by decide, by decide⟩
  intro compile st en w i r htag hc
  simp only [regexStep, htag, Bool.false_eq_true, if_false, hc]
  cases hm : reMatch r w <;> simp [hm]

/-- Witness for C6: the Dog pattern item matches the value Dogs. -/
theorem regex_tagged_prefix_match_witness :
    regexStep dogCompile '<' '>' (pstr "Dogs") (pstr "<Dog[se]?>") = .matched :=
  (regex_tagged_prefix_match.1 dogCompile '<' '>' (pstr "Dogs") (pstr "<Dog[se]?>")
    dogRE (by decide) (by decide)).mpr (by decide)

/-- C7 counterexample: with field items containing an empty string before
a matching literal, the scan raises `IndexError` (modelled `none`) even
though an item satisfying the comparison exists, so the unconditional
equivalence of the claim fails. -/
theorem string_fits_empty_item_counterexample :
    stringFitsList exactCompare '<' '>' (pstr "a") [([] : PStr), pstr "a"] = none
    ∧ (List.any [([] : PStr), pstr "a"]
        (fun i => exactCompare (pstr "a") (stripTags '<' '>' i))) = true := by
  decide

/-- C7 amended: when no field item is empty, `StringChecker.fits` is true
iff some item, tag-stripped exactly when its first character is
`start_tag` and its last is `end_tag`, satisfies the comparison: equality
for `StringExactChecker` and substring containment of the needle `what`
for `StringFuzzyChecker`. -/
theorem string_fits_characterization (st en : Char) (w : PStr) (l : List PStr)
    (h : ∀ i ∈ l, i ≠ ([] : PStr)) :
    ((stringFitsList exactCompare st en w l = some true) ↔
        (∃ i ∈ l, w = stripTags st en i))
    ∧ ((stringFitsList fuzzyCompare st en w l = some true) ↔
        (∃ i ∈ l, inStr w (stripTags st en i) = true)) := by
  constructor
  · rw [stringFitsList_iff exactCompare st en w l h]
    constructor
    · rintro ⟨i, hi, hc⟩
      exact ⟨i, hi, LawfulBEq.eq_of_beq hc⟩
    · rintro ⟨i, hi, hc⟩
      exact ⟨i, hi, by simp [exactCompare, hc]⟩
  · exact stringFitsList_iff fuzzyCompare st en w l h

/-- Witness for C7: a tag-stripped exact match and a fuzzy substring
match on concrete fields. -/
theorem string_fits_characterization_witness :
    stringFitsList exactCompare '<' '>' (pstr "ab") l7 = some true
    ∧ stringFitsList fuzzyCompare '<' '>' (pstr "u") [pstr "sun"] = some true :=
  ⟨(string_fits_characterization '<' '>' (pstr "ab") l7 (by decide)).1.mpr
      ⟨pstr "<ab>", by decide, by decide⟩,
   (string_fits_characterization '<' '>' (pstr "u") [pstr "sun"] (by decide)).2.mpr
      ⟨pstr "sun", by decide, by decide⟩⟩

/-- C8 counterexample: a tagged pattern whose compilation fails is never
cached (CPython's `lru_cache` memoizes only calls that return), so two
successive `fits` calls on the same triple each invoke the compiler once
although nothing was ever inserted into — let alone evicted from — the
cache. -/
theorem lru_error_recompile_counterexample :
    (fitsCachedList alwaysFailCompile 2 '<' '>' (pstr "x") [] [badPattern]).2.2 = 1
    ∧ (fitsCachedList alwaysFailCompile 2 '<' '>' (pstr "x") [] [badPattern]).2.1 = []
    ∧ (fitsCachedList alwaysFailCompile 2 '<' '>' (pstr "x")
        (fitsCachedList alwaysFailCompile 2 '<' '>' (pstr "x") [] [badPattern]).2.1
        [badPattern]).2.2 = 1 := by
  decide

/-- C8 amended: the cache never exceeds its capacity; the compiler is
invoked exactly on misses; when a key's compilation succeeds, an
immediately repeated access — and a repeated single-item `fits` call —
does not invoke the compiler again; and inserting into a full cache
evicts exactly the least-recently-used entry. -/
theorem lru_cache_spec (compile : PStr → Char → Char → Option RE) (cap : Nat)
    (c : Cache) (k : CKey) (v : RE)
    (hlen : c.length ≤ cap) (hcap : 0 < cap)
    (hcompile : compile k.1 k.2.1 k.2.2 = some v) :
    ((lruGet compile cap c k).2.1.length ≤ cap)
    ∧ (cacheLookup k c ≠ none → (lruGet compile cap c k).2.2 = false)
    ∧ ((lruGet compile cap c k).2.2 = true → cacheLookup k c = none)
    ∧ ((lruGet compile cap ((lruGet compile cap c k).2.1) k).2.2 = false)
    ∧ (cacheLookup k c = none → c.length = cap →
        (lruGet compile cap c k).2.1 = (k, v) :: c.dropLast)
    ∧ (∀ (st en : Char) (w i : PStr), regexLiteral st en i = false →
        (i, st, en) = k →
        (fitsCachedList compile cap st en w
          (fitsCachedList compile cap st en w c [i]).2.1 [i]).2.2 = 0) := by
  refine ⟨?_, ?_, ?_, ?_, ?_, ?_⟩
  · cases h : cacheLookup k c with
    | some v2 =>
      rw [lruGet_hit compile cap c k v2 h]
      have h2 := eraseKey_length k c v2 h
      simp only [List.length_cons]
      omega
    | none =>
      rw [lruGet_miss compile cap c k v h hcompile]
      exact List.length_take_le cap ((k, v) :: c)
  · intro hne
    cases h : cacheLookup k c with
    | some v2 => rw [lruGet_hit compile cap c k v2 h]
    | none => exact absurd h hne
  · intro hflag
    cases h : cacheLookup k c with
    | some v2 =>
      rw [lruGet_hit compile cap c k v2 h] at hflag
      simp at hflag
    | none => rfl
  · exact lruGet_twice compile cap c k v hcap hcompile
  · intro hmiss hfull
    obtain ⟨m, rfl⟩ : ∃ m, cap = m + 1 := ⟨cap - 1, by omega⟩
    rw [lruGet_miss compile (m + 1) c k v hmiss hcompile]
    simp only [List.take_succ_cons]
    rw [List.dropLast_eq_take]
    have hm2 : c.length - 1 = m := by omega
    rw [hm2]
  · intro st en w i htag hk
    subst hk
    exact fitsCached_second compile cap st en w i c v hcap htag hcompile

/-- Witness for C8: a second access of the Dog triple right after a first
one does not invoke the compiler. -/
theorem lru_cache_spec_witness :
    (lruGet dogCompile 2 ((lruGet dogCompile 2 ([] : Cache) k0).2.1) k0).2.2 = false :=
  (lru_cache_spec dogCompile 2 [] k0 dogRE (by decide) (by decide) (by decide)).2.2.2.1

/-- C9: `get`, `get_all` and `find_for_inquiry` return the delegate's
result unchanged (errors included), produce a trace containing only the
delegated call — no `notify()` and no subscriber invocation — and leave
the subscriber list unchanged. -/
theorem obs_read_spec {E R : Type} (subs : List Nat) (res : Except E R) :
    obsGet subs res = (res, [.delegated], subs)
    ∧ obsGetAll subs res = (res, [.delegated], subs)
    ∧ obsFindForInquiry subs res = (res, [.delegated], subs)
    ∧ (obsGet subs res).2.1.count .notifyCalled = 0
    ∧ ((obsGet subs res).2.1.filter isObservedEv) = [] := by
  refine ⟨rfl, rfl, rfl, ?_, ?_⟩ <;> simp [obsGet, isObservedEv]

/-- Witness for C9 at a concrete read. -/
theorem obs_read_spec_witness :
    obsGet [3] (Except.ok 7 : Except Nat Nat) = (Except.ok 7, [StoreEv.delegated], [3]) :=
  (obs_read_spec [3] (Except.ok 7 : Except Nat Nat)).1

/-- C10: the empty list of pairs vacuously satisfies
`StringPairsEqualCondition` for every request. -/
theorem pairs_empty_vacuous (request : PyVal) :
    pairsSatisfied (.list []) request = some true := rfl

/-- Witness for C10 at a concrete request. -/
theorem pairs_empty_vacuous_witness :
    pairsSatisfied (.list []) (.int 0) = some true :=
  pairs_empty_vacuous (.int 0)

end Vakt
